import Mathlib

/-!
Shallow embedding of `src/backend/src/main.rs` (kolja/tarotreader).

The backend is a Rocket HTTP server exposing an in-memory store of tarot
readings.  We embed:

* `Uuid` values as natural numbers below `2 ^ 128`; the textual forms and
  `Uuid::parse_str` / `Display` (lowercase hyphenated) follow the `uuid`
  crate's parser, which accepts the simple (32 hex digits), hyphenated
  (8-4-4-4-12), braced (`{hyphenated}`) and URN (`urn:uuid:hyphenated`)
  forms with case-insensitive hex digits;
* `DateTime<Utc>` timestamps as integers (seconds); `chrono::Duration::days d`
  is `d * 86400` seconds;
* the `HashMap<Uuid, TarotReading>` store as an association list with
  `HashMap::insert` semantics (replace the value when the key is present,
  append otherwise); the iteration order of `values()` is irrelevant to every
  property proved here because the handlers sort or look up by key;
* the nondeterministic inputs of the handlers (`Uuid::new_v4()`,
  `Utc::now()`) as explicit parameters.
-/

namespace TarotReader

/-! ### Uuid textual forms (`uuid` crate) -/

abbrev Uuid := Nat

/-- Value of one hex digit, case-insensitive, as in the `uuid` crate parser. -/
def hexVal (c : Char) : Option Nat :=
  if '0' ≤ c ∧ c ≤ '9' then some (c.toNat - '0'.toNat)
  else if 'a' ≤ c ∧ c ≤ 'f' then some (c.toNat - 'a'.toNat + 10)
  else if 'A' ≤ c ∧ c ≤ 'F' then some (c.toNat - 'A'.toNat + 10)
  else none

/-- Lowercase hex digit character, as produced by the `Display` impl. -/
def toHexChar (d : Nat) : Char :=
  if d < 10 then Char.ofNat ('0'.toNat + d) else Char.ofNat ('a'.toNat + d - 10)

/-- Uppercase hex digit character (used only to describe alternative
textual forms accepted by the parser). -/
def toHexCharUpper (d : Nat) : Char :=
  if d < 10 then Char.ofNat ('0'.toNat + d) else Char.ofNat ('A'.toNat + d - 10)

/-- Big-endian list of `n` base-16 digits of `u`. -/
def natToHexDigits : Uuid → Nat → List Nat
  | _, 0 => []
  | u, n + 1 => natToHexDigits (u / 16) n ++ [u % 16]

/-- The 32 hex digits of a 128-bit uuid value, most significant first. -/
def uuidDigits (u : Uuid) : List Nat := natToHexDigits u 32

/-- Hyphenate a 32-character digit string in the 8-4-4-4-12 uuid pattern. -/
def hyphenate (ds : List Char) : List Char :=
  ds.take 8 ++ '-' :: ((ds.drop 8).take 4 ++ '-' ::
    ((ds.drop 12).take 4 ++ '-' :: ((ds.drop 16).take 4 ++ '-' :: ds.drop 20)))

/-- Canonical lowercase hyphenated form, as produced by `Uuid`'s `Display`
(used by `format!("/api/readings/{}", id)` and by serialization). -/
def uuidToString (u : Uuid) : String := ⟨hyphenate ((uuidDigits u).map toHexChar)⟩

/-- Uppercase-hex hyphenated textual form of the same value. -/
def uuidToStringUpper (u : Uuid) : String :=
  ⟨hyphenate ((uuidDigits u).map toHexCharUpper)⟩

/-- Braced textual form `\x7b...\x7d` accepted by `Uuid::parse_str`. -/
def uuidToStringBraced (u : Uuid) : String := "\x7b" ++ uuidToString u ++ "\x7d"

/-- URN textual form `urn:uuid:...` accepted by `Uuid::parse_str`. -/
def uuidToStringUrn (u : Uuid) : String := "urn:uuid:" ++ uuidToString u

/-- Read exactly `n` hex digits, accumulating into `acc`; returns the value
and the remaining characters. -/
def readHexN : Nat → List Char → Nat → Option (Nat × List Char)
  | 0, cs, acc => some (acc, cs)
  | _ + 1, [], _ => none
  | n + 1, c :: cs, acc =>
    match hexVal c with
    | some d => readHexN n cs (acc * 16 + d)
    | none => none

/-- Expect a hyphen and drop it. -/
def expectDash : List Char → Option (List Char)
  | '-' :: cs => some cs
  | _ => none

/-- Parse the hyphenated `8-4-4-4-12` form (exactly 36 characters). -/
def parseHyphenated (cs : List Char) : Option Uuid := do
  let (a, cs) ← readHexN 8 cs 0
  let cs ← expectDash cs
  let (a, cs) ← readHexN 4 cs a
  let cs ← expectDash cs
  let (a, cs) ← readHexN 4 cs a
  let cs ← expectDash cs
  let (a, cs) ← readHexN 4 cs a
  let cs ← expectDash cs
  let (a, cs) ← readHexN 12 cs a
  if cs.isEmpty then some a else none

/-- Parse the simple form: exactly 32 hex digits. -/
def parseSimple (cs : List Char) : Option Uuid := do
  let (a, cs) ← readHexN 32 cs 0
  if cs.isEmpty then some a else none

/-- `Uuid::parse_str`: dispatch on length as the `uuid` crate does:
32 → simple, 36 → hyphenated, 38 with surrounding braces → hyphenated inner,
45 with the literal prefix `urn:uuid:` → hyphenated rest; anything else is
an error. -/
def parse_str (s : String) : Option Uuid :=
  let cs := s.data
  if cs.length = 32 then parseSimple cs
  else if cs.length = 36 then parseHyphenated cs
  else if cs.length = 38 ∧ cs.head? = some '\x7b' ∧ cs.getLast? = some '\x7d' then
    parseHyphenated (cs.drop 1).dropLast
  else if cs.length = 45 ∧ cs.take 9 = "urn:uuid:".data then
    parseHyphenated (cs.drop 9)
  else none

/-! ### Data model (`main.rs` lines 13-37) -/

structure TarotReading where
  id : Uuid
  question : String
  cards : List String
  interpretation : String
  created_at : Int
deriving Repr, DecidableEq

structure CreateReadingRequest where
  question : String
  cards : List String
  interpretation : String
deriving Repr, DecidableEq

/-- `type ReadingsStore = RwLock<HashMap<Uuid, TarotReading>>`; the lock is
invisible to the sequential semantics, the map is an association list with
`HashMap` insert/lookup semantics. -/
abbrev ReadingsStore := List (Uuid × TarotReading)

/-- `HashMap::insert`: replace the stored value when the key is present,
otherwise add the new entry. -/
def hmInsert (m : ReadingsStore) (k : Uuid) (v : TarotReading) : ReadingsStore :=
  if m.any (fun p => p.1 == k) then
    m.map (fun p => if p.1 == k then (k, v) else p)
  else m ++ [(k, v)]

/-- `HashMap::get`. -/
def hmGet (m : ReadingsStore) (k : Uuid) : Option TarotReading :=
  (m.find? (fun p => p.1 == k)).map (fun p => p.2)

/-- `HashMap::values`. -/
def hmValues (m : ReadingsStore) : List TarotReading := m.map (fun p => p.2)

/-- `HashMap::len`. -/
def hmLen (m : ReadingsStore) : Nat := m.length

/-- Keys of the store. -/
def hmKeys (m : ReadingsStore) : List Uuid := m.map (fun p => p.1)

/-- The store invariant maintained by a real `HashMap`: keys are distinct. -/
def StoreWF (m : ReadingsStore) : Prop := (hmKeys m).Nodup

/-! ### Route handlers (`main.rs` lines 62-98) -/

/-- `get_readings`: collect all values and
`sort_by(|a, b| b.created_at.cmp(&a.created_at))`, i.e. a stable sort into
descending `created_at` order. -/
def get_readings (store : ReadingsStore) : List TarotReading :=
  (hmValues store).mergeSort (fun a b => b.created_at ≤ a.created_at)

/-- `get_reading`: `Uuid::parse_str(&id).ok()?`, then map lookup; `none` is
the empty 404 response. -/
def get_reading (store : ReadingsStore) (id : String) : Option TarotReading :=
  match parse_str id with
  | none => none
  | some uuid => hmGet store uuid

/-- `create_reading`: build the record from the request with the generated
id (`Uuid::new_v4()`, passed as parameter) and the current time
(`Utc::now()`, passed as parameter), insert it, and return the new store,
the record (201 body) and the `Location` string. -/
def create_reading (store : ReadingsStore) (request : CreateReadingRequest)
    (id : Uuid) (now : Int) : ReadingsStore × TarotReading × String :=
  let reading : TarotReading :=
    { id := id
      question := request.question
      cards := request.cards
      interpretation := request.interpretation
      created_at := now }
  (hmInsert store id reading, reading, "/api/readings/" ++ uuidToString id)

/-! ### Sample data (`main.rs` lines 133-175) -/

def sampleQuestion1 : String := "What does the future hold for my career?"
def sampleCards1 : List String := ["The Fool", "The Magician", "The High Priestess"]
def sampleInterp1 : String := "The Fool suggests new beginnings and taking a leap of faith in your career. The Magician indicates you have all the tools and skills necessary for success. The High Priestess advises trusting your intuition when making important career decisions."

def sampleQuestion2 : String := "Should I pursue this new relationship?"
def sampleCards2 : List String := ["The Lovers", "Two of Cups", "The Sun"]
def sampleInterp2 : String := "The Lovers card strongly indicates a meaningful connection. The Two of Cups reinforces partnership and mutual attraction. The Sun brings joy and positivity, suggesting this relationship has great potential for happiness."

def sampleQuestion3 : String := "How can I improve my financial situation?"
def sampleCards3 : List String := ["Nine of Pentacles", "The Emperor", "Three of Wands"]
def sampleInterp3 : String := "The Nine of Pentacles suggests financial independence is within reach through self-discipline. The Emperor advises taking control and creating structure in your financial planning. The Three of Wands indicates your long-term investments and planning will pay off."

/-- The three seeded records: fresh ids (`Uuid::new_v4()`, passed as
parameters) with timestamps `now - 2 days`, `now - 1 day`, `now`. -/
def sampleReadings (id1 id2 id3 : Uuid) (now : Int) : List TarotReading :=
  [ { id := id1, question := sampleQuestion1, cards := sampleCards1
      interpretation := sampleInterp1, created_at := now - 2 * 86400 },
    { id := id2, question := sampleQuestion2, cards := sampleCards2
      interpretation := sampleInterp2, created_at := now - 1 * 86400 },
    { id := id3, question := sampleQuestion3, cards := sampleCards3
      interpretation := sampleInterp3, created_at := now } ]

/-- `initialize_sample_data`: insert the three samples into an empty map. -/
def initialize_sample_data (id1 id2 id3 : Uuid) (now : Int) : ReadingsStore :=
  (sampleReadings id1 id2 id3 now).foldl (fun st r => hmInsert st r.id r) []

/-- A sequence of create requests, each with its generated id and its
observed current time. -/
def createMany (store : ReadingsStore)
    (reqs : List (CreateReadingRequest × Uuid × Int)) : ReadingsStore :=
  reqs.foldl (fun st r => (create_reading st r.1 r.2.1 r.2.2).1) store

/-! ### CORS configurator (`main.rs` lines 101-131) -/

inductive AllowedOrigins where
  | someExact : List String → AllowedOrigins
  | all : AllowedOrigins
deriving Repr, DecidableEq

structure CorsOptions where
  allowed_origins : AllowedOrigins
  allowed_methods : List String
  allowed_headers_all : Bool
  allow_credentials : Bool
deriving Repr, DecidableEq

/-- `configure_cors`: `debugAssertions` is `cfg!(debug_assertions)` (true in
development builds); `allowedOriginsEnv` is `env::var("ALLOWED_ORIGINS")`
(`none` when the variable is absent). -/
def configure_cors (debugAssertions : Bool) (allowedOriginsEnv : Option String) :
    CorsOptions :=
  let allowed_origins :=
    if debugAssertions then
      AllowedOrigins.someExact
        ["http://localhost:3000", "http://127.0.0.1:3000",
         "http://localhost:5173", "http://127.0.0.1:5173"]
    else
      match allowedOriginsEnv with
      | some origins => AllowedOrigins.someExact (origins.splitOn ",")
      | none => AllowedOrigins.all
  { allowed_origins := allowed_origins
    allowed_methods := ["GET", "POST", "PUT", "DELETE", "OPTIONS"]
    allowed_headers_all := true
    allow_credentials := true }

/-! ### JSON shape of a Reading (serde derive on `TarotReading`) -/

inductive JsonVal where
  | str : String → JsonVal
  | int : Int → JsonVal
  | arr : List JsonVal → JsonVal
  | obj : List (String × JsonVal) → JsonVal
deriving Repr

/-- Serialize a reading to the JSON shape
`\x7bid, question, cards, interpretation, created_at\x7d`; the uuid is
serialized through its canonical lowercase hyphenated string, the timestamp
is carried as its integer value. -/
def serializeReading (r : TarotReading) : JsonVal :=
  .obj [("id", .str (uuidToString r.id)),
        ("question", .str r.question),
        ("cards", .arr (r.cards.map .str)),
        ("interpretation", .str r.interpretation),
        ("created_at", .int r.created_at)]

def jsonField (j : JsonVal) (name : String) : Option JsonVal :=
  match j with
  | .obj fields => (fields.find? (fun p => p.1 == name)).map (fun p => p.2)
  | _ => none

def jsonStr? : JsonVal → Option String
  | .str s => some s
  | _ => none

def jsonInt? : JsonVal → Option Int
  | .int i => some i
  | _ => none

def jsonStrList? : JsonVal → Option (List String)
  | .arr xs => xs.mapM jsonStr?
  | _ => none

/-- Parse a reading back from JSON, by field name, rejecting missing or
ill-typed fields (as serde does). -/
def deserializeReading (j : JsonVal) : Option TarotReading := do
  let idS ← (jsonField j "id").bind jsonStr?
  let id ← parse_str idS
  let q ← (jsonField j "question").bind jsonStr?
  let cards ← (jsonField j "cards").bind jsonStrList?
  let interp ← (jsonField j "interpretation").bind jsonStr?
  let ca ← (jsonField j "created_at").bind jsonInt?
  some { id := id, question := q, cards := cards,
         interpretation := interp, created_at := ca }

/-- Fold base-16 digits onto an accumulator (proof-side helper). -/
def hexFold (acc : Nat) (ds : List Nat) : Nat :=
  ds.foldl (fun a d => a * 16 + d) acc

/-- The record `create_reading` builds from a request, its generated id and
its observed time (proof-side helper naming the record constructed inline in
the handler). -/
def requestReading (r : CreateReadingRequest × Uuid × Int) : TarotReading :=
  { id := r.2.1
    question := r.1.question
    cards := r.1.cards
    interpretation := r.1.interpretation
    created_at := r.2.2 }

end TarotReader

namespace TarotReader

/-! ### Lemmas: hex digits and uuid textual round-trip -/

lemma hexVal_toHexChar : ∀ d, d < 16 → hexVal (toHexChar d) = some d := by decide

lemma hexVal_toHexCharUpper : ∀ d, d < 16 → hexVal (toHexCharUpper d) = some d := by
  decide

lemma natToHexDigits_length (n : Nat) : ∀ u, (natToHexDigits u n).length = n := by
  induction n with
  | zero => intro u; rfl
  | succ n ih => intro u; simp [natToHexDigits, ih]

lemma natToHexDigits_lt (n : Nat) : ∀ u, ∀ d ∈ natToHexDigits u n, d < 16 := by
  induction n with
  | zero => intro u d hd; simp [natToHexDigits] at hd
  | succ n ih =>
    intro u d hd
    simp only [natToHexDigits, List.mem_append, List.mem_singleton] at hd
    rcases hd with hd | hd
    · exact ih _ d hd
    · subst hd; exact Nat.mod_lt _ (by omega)

lemma hexFold_append (acc : Nat) (xs ys : List Nat) :
    hexFold acc (xs ++ ys) = hexFold (hexFold acc xs) ys := by
  simp [hexFold, List.foldl_append]

lemma hexFold_natToHexDigits (n : Nat) :
    ∀ u acc, u < 16 ^ n → hexFold acc (natToHexDigits u n) = acc * 16 ^ n + u := by
  induction n with
  | zero =>
    intro u acc hu
    interval_cases u
    simp [hexFold, natToHexDigits]
  | succ n ih =>
    intro u acc hu
    have hdiv : u / 16 < 16 ^ n := by
      rw [Nat.div_lt_iff_lt_mul (by omega)]
      calc u < 16 ^ (n + 1) := hu
        _ = 16 ^ n * 16 := by ring
    rw [natToHexDigits, hexFold_append, ih (u / 16) acc hdiv]
    have := Nat.div_add_mod u 16
    simp only [hexFold, List.foldl_cons, List.foldl_nil]
    calc (acc * 16 ^ n + u / 16) * 16 + u % 16
        = acc * (16 ^ n * 16) + (u / 16 * 16 + u % 16) := by ring
      _ = acc * 16 ^ (n + 1) + u := by rw [pow_succ]; omega

lemma readHexN_digits (f : Nat → Char) (hf : ∀ d, d < 16 → hexVal (f d) = some d) :
    ∀ (ds : List Nat) (n : Nat) (rest : List Char) (acc : Nat),
      ds.length = n → (∀ d ∈ ds, d < 16) →
      readHexN n (ds.map f ++ rest) acc = some (hexFold acc ds, rest) := by
  intro ds
  induction ds with
  | nil =>
    intro n rest acc hn _
    subst hn
    simp [readHexN, hexFold]
  | cons d tl ih =>
    intro n rest acc hn hlt
    subst hn
    have hd : hexVal (f d) = some d := hf d (hlt d (by simp))
    simp only [List.map_cons, List.cons_append, List.length_cons, readHexN, hd]
    have : hexFold acc (d :: tl) = hexFold (acc * 16 + d) tl := rfl
    rw [this]
    exact ih tl.length rest (acc * 16 + d) rfl (fun x hx => hlt x (by simp [hx]))

lemma parseHyphenated_hyphenate (f : Nat → Char)
    (hf : ∀ d, d < 16 → hexVal (f d) = some d)
    (ds : List Nat) (hlen : ds.length = 32) (hlt : ∀ d ∈ ds, d < 16) :
    parseHyphenated (hyphenate (ds.map f)) = some (hexFold 0 ds) := by
  have hseg : ∀ (k j : Nat), ∀ d ∈ (ds.drop k).take j, d < 16 := fun k j d hd =>
    hlt d (List.mem_of_mem_drop (List.mem_of_mem_take hd))
  have hseg5 : ∀ d ∈ ds.drop 20, d < 16 := fun d hd => hlt d (List.mem_of_mem_drop hd)
  have l1 : (ds.take 8).length = 8 := by simp [hlen]
  have l2 : ((ds.drop 8).take 4).length = 4 := by simp [hlen]
  have l3 : ((ds.drop 12).take 4).length = 4 := by simp [hlen]
  have l4 : ((ds.drop 16).take 4).length = 4 := by simp [hlen]
  have l5 : (ds.drop 20).length = 12 := by simp [hlen]
  have expand : hyphenate (ds.map f) =
      (ds.take 8).map f ++ '-' :: (((ds.drop 8).take 4).map f ++ '-' ::
        (((ds.drop 12).take 4).map f ++ '-' ::
          (((ds.drop 16).take 4).map f ++ '-' :: (ds.drop 20).map f))) := by
    simp [hyphenate, List.map_take, List.map_drop]
  rw [expand]
  simp only [parseHyphenated, bind, Option.bind]
  rw [readHexN_digits f hf (ds.take 8) 8 _ 0 l1 (fun d hd => hlt d (List.mem_of_mem_take hd))]
  simp only [expectDash]
  rw [readHexN_digits f hf ((ds.drop 8).take 4) 4 _ _ l2 (hseg 8 4)]
  simp only [expectDash]
  rw [readHexN_digits f hf ((ds.drop 12).take 4) 4 _ _ l3 (hseg 12 4)]
  simp only [expectDash]
  rw [readHexN_digits f hf ((ds.drop 16).take 4) 4 _ _ l4 (hseg 16 4)]
  simp only [expectDash]
  rw [show ((ds.drop 20).map f) = ((ds.drop 20).map f) ++ [] from (List.append_nil _).symm]
  rw [readHexN_digits f hf (ds.drop 20) 12 [] _ l5 hseg5]
  simp only [List.isEmpty_nil, if_true]
  congr 1
  rw [← hexFold_append, ← hexFold_append, ← hexFold_append, ← hexFold_append]
  congr 1
  have h1 : ds.drop 8 = (ds.drop 8).take 4 ++ ds.drop 12 := by
    rw [show (12 : Nat) = 8 + 4 from rfl, ← List.drop_drop]
    exact (List.take_append_drop 4 (ds.drop 8)).symm
  have h2 : ds.drop 12 = (ds.drop 12).take 4 ++ ds.drop 16 := by
    rw [show (16 : Nat) = 12 + 4 from rfl, ← List.drop_drop]
    exact (List.take_append_drop 4 (ds.drop 12)).symm
  have h3 : ds.drop 16 = (ds.drop 16).take 4 ++ ds.drop 20 := by
    rw [show (20 : Nat) = 16 + 4 from rfl, ← List.drop_drop]
    exact (List.take_append_drop 4 (ds.drop 16)).symm
  conv_rhs => rw [← List.take_append_drop 8 ds, h1, h2, h3]

lemma uuidDigits_length (u : Uuid) : (uuidDigits u).length = 32 :=
  natToHexDigits_length 32 u

lemma uuidDigits_lt (u : Uuid) : ∀ d ∈ uuidDigits u, d < 16 :=
  natToHexDigits_lt 32 u

lemma hexFold_uuidDigits (u : Uuid) (hu : u < 2 ^ 128) : hexFold 0 (uuidDigits u) = u := by
  have h16 : u < 16 ^ 32 := by
    calc u < 2 ^ 128 := hu
      _ = 16 ^ 32 := by norm_num
  rw [uuidDigits, hexFold_natToHexDigits 32 u 0 h16]
  ring

lemma hyphenate_length (ds : List Char) (h : ds.length = 32) :
    (hyphenate ds).length = 36 := by
  simp [hyphenate, h]

lemma parseHyphenated_uuid (f : Nat → Char)
    (hf : ∀ d, d < 16 → hexVal (f d) = some d) (u : Uuid) (hu : u < 2 ^ 128) :
    parseHyphenated (hyphenate ((uuidDigits u).map f)) = some u := by
  rw [parseHyphenated_hyphenate f hf (uuidDigits u) (uuidDigits_length u) (uuidDigits_lt u),
    hexFold_uuidDigits u hu]

lemma parse_str_hyphenated_form (f : Nat → Char)
    (hf : ∀ d, d < 16 → hexVal (f d) = some d) (u : Uuid) (hu : u < 2 ^ 128) :
    parse_str ⟨hyphenate ((uuidDigits u).map f)⟩ = some u := by
  have hl32 : ((uuidDigits u).map f).length = 32 := by simp [uuidDigits_length]
  have hlen : (hyphenate ((uuidDigits u).map f)).length = 36 := hyphenate_length _ hl32
  rw [parse_str]
  simp only [String.data]
  rw [if_neg (by omega), if_pos hlen]
  exact parseHyphenated_uuid f hf u hu

lemma parse_str_uuidToString (u : Uuid) (hu : u < 2 ^ 128) :
    parse_str (uuidToString u) = some u :=
  parse_str_hyphenated_form toHexChar hexVal_toHexChar u hu

lemma parse_str_uuidToStringUpper (u : Uuid) (hu : u < 2 ^ 128) :
    parse_str (uuidToStringUpper u) = some u :=
  parse_str_hyphenated_form toHexCharUpper hexVal_toHexCharUpper u hu

lemma parse_str_uuidToStringBraced (u : Uuid) (hu : u < 2 ^ 128) :
    parse_str (uuidToStringBraced u) = some u := by
  have hl32 : ((uuidDigits u).map toHexChar).length = 32 := by simp [uuidDigits_length]
  have hlen : (hyphenate ((uuidDigits u).map toHexChar)).length = 36 :=
    hyphenate_length _ hl32
  have hdata : (uuidToStringBraced u).data =
      '\x7b' :: (hyphenate ((uuidDigits u).map toHexChar) ++ ['\x7d']) := by
    simp [uuidToStringBraced, uuidToString]
  rw [parse_str]
  simp only [hdata]
  rw [if_neg (by simp [hlen]), if_neg (by simp [hlen]), if_pos]
  · rw [List.drop_one, List.tail_cons, List.dropLast_concat]
    exact parseHyphenated_uuid toHexChar hexVal_toHexChar u hu
  · refine ⟨by simp [hlen], rfl, ?_⟩
    rw [List.getLast?_cons, List.getLast?_concat]
    simp

lemma parse_str_uuidToStringUrn (u : Uuid) (hu : u < 2 ^ 128) :
    parse_str (uuidToStringUrn u) = some u := by
  have hl32 : ((uuidDigits u).map toHexChar).length = 32 := by simp [uuidDigits_length]
  have hlen : (hyphenate ((uuidDigits u).map toHexChar)).length = 36 :=
    hyphenate_length _ hl32
  have hpre : ("urn:uuid:".data).length = 9 := rfl
  have hdata : (uuidToStringUrn u).data =
      "urn:uuid:".data ++ hyphenate ((uuidDigits u).map toHexChar) := by
    simp [uuidToStringUrn, uuidToString]
  rw [parse_str]
  simp only [hdata]
  rw [if_neg (by simp [hlen]), if_neg (by simp [hlen]),
    if_neg (by simp [hlen]), if_pos]
  · rw [show (9 : Nat) = ("urn:uuid:".data).length from rfl, List.drop_left]
    exact parseHyphenated_uuid toHexChar hexVal_toHexChar u hu
  · refine ⟨by simp [hlen], ?_⟩
    rw [show (9 : Nat) = ("urn:uuid:".data).length from rfl, List.take_left]

/-! ### Lemmas: the store -/

lemma hmKeys_cons (p : Uuid × TarotReading) (tl : ReadingsStore) :
    hmKeys (p :: tl) = p.1 :: hmKeys tl := rfl

lemma any_key_eq_false_iff (m : ReadingsStore) (k : Uuid) :
    m.any (fun p => p.1 == k) = false ↔ k ∉ hmKeys m := by
  simp only [List.any_eq_false, beq_iff_eq, hmKeys, List.mem_map, not_exists]
  aesop

lemma any_key_eq_true_of_mem (m : ReadingsStore) (k : Uuid) (h : k ∈ hmKeys m) :
    m.any (fun p => p.1 == k) = true := by
  simp only [List.any_eq_true, beq_iff_eq]
  obtain ⟨p, hp, hpk⟩ := List.mem_map.mp h
  exact ⟨p, hp, hpk⟩

lemma hmGet_eq_none_of_not_mem (m : ReadingsStore) (k : Uuid) (h : k ∉ hmKeys m) :
    hmGet m k = none := by
  rw [hmGet, List.find?_eq_none.mpr, Option.map_none']
  intro p hp
  simp only [beq_iff_eq]
  intro hpk
  exact h (by rw [hmKeys]; exact List.mem_map.mpr ⟨p, hp, hpk⟩)

lemma hmInsert_of_not_mem (m : ReadingsStore) (k : Uuid) (v : TarotReading)
    (h : k ∉ hmKeys m) : hmInsert m k v = m ++ [(k, v)] := by
  rw [hmInsert, if_neg]
  rw [Bool.not_eq_true, any_key_eq_false_iff]
  exact h

lemma find_replace (m : ReadingsStore) (k : Uuid) (v : TarotReading)
    (h : m.any (fun p => p.1 == k) = true) :
    (m.map (fun p => if p.1 == k then (k, v) else p)).find? (fun p => p.1 == k) =
      some (k, v) := by
  induction m with
  | nil => simp at h
  | cons p tl ih =>
    rw [List.map_cons]
    by_cases hpk : p.1 = k
    · rw [if_pos (by simpa using hpk), List.find?_cons_of_pos _ (by simp)]
    · rw [if_neg (by simpa using hpk), List.find?_cons_of_neg _ (by simpa using hpk)]
      exact ih (by simpa [List.any_cons, hpk] using h)

lemma find_append_self (m : ReadingsStore) (k : Uuid) (v : TarotReading)
    (h : k ∉ hmKeys m) :
    (m ++ [(k, v)]).find? (fun p => p.1 == k) = some (k, v) := by
  induction m with
  | nil => rw [List.nil_append, List.find?_cons_of_pos _ (by simp)]
  | cons p tl ih =>
    have hpk : ¬p.1 = k := fun hk => h (by rw [hmKeys_cons, hk]; exact List.mem_cons_self _ _)
    rw [List.cons_append, List.find?_cons_of_neg _ (by simpa using hpk)]
    exact ih (fun hk => h (by rw [hmKeys_cons]; exact List.mem_cons_of_mem _ hk))

lemma hmGet_hmInsert_self (m : ReadingsStore) (k : Uuid) (v : TarotReading) :
    hmGet (hmInsert m k v) k = some v := by
  by_cases hk : k ∈ hmKeys m
  · have hany := any_key_eq_true_of_mem m k hk
    rw [hmInsert, if_pos hany, hmGet, find_replace m k v hany, Option.map_some']
  · rw [hmInsert_of_not_mem m k v hk, hmGet, find_append_self m k v hk, Option.map_some']

lemma find_map_ne (m : ReadingsStore) (k : Uuid) (v : TarotReading) (q : Uuid)
    (hne : q ≠ k) :
    (m.map (fun p => if p.1 == k then (k, v) else p)).find? (fun p => p.1 == q) =
      m.find? (fun p => p.1 == q) := by
  induction m with
  | nil => rfl
  | cons p tl ih =>
    rw [List.map_cons]
    by_cases hpk : p.1 = k
    · rw [if_pos (by simpa using hpk),
        List.find?_cons_of_neg _ (by simpa using Ne.symm hne),
        List.find?_cons_of_neg _
          (by simp only [beq_iff_eq, hpk]; exact fun hq => hne hq.symm)]
      exact ih
    · rw [if_neg (by simpa using hpk)]
      by_cases hpq : p.1 = q
      · rw [List.find?_cons_of_pos _ (by simpa using hpq),
          List.find?_cons_of_pos _ (by simpa using hpq)]
      · rw [List.find?_cons_of_neg _ (by simpa using hpq),
          List.find?_cons_of_neg _ (by simpa using hpq)]
        exact ih

lemma find_append_ne (m : ReadingsStore) (k : Uuid) (v : TarotReading) (q : Uuid)
    (hne : q ≠ k) :
    (m ++ [(k, v)]).find? (fun p => p.1 == q) = m.find? (fun p => p.1 == q) := by
  induction m with
  | nil =>
    rw [List.nil_append, List.find?_cons_of_neg _ (by simpa using Ne.symm hne)]
  | cons p tl ih =>
    rw [List.cons_append]
    by_cases hpq : p.1 = q
    · rw [List.find?_cons_of_pos _ (by simpa using hpq),
        List.find?_cons_of_pos _ (by simpa using hpq)]
    · rw [List.find?_cons_of_neg _ (by simpa using hpq),
        List.find?_cons_of_neg _ (by simpa using hpq)]
      exact ih

lemma hmGet_hmInsert_ne (m : ReadingsStore) (k : Uuid) (v : TarotReading) (q : Uuid)
    (hne : q ≠ k) : hmGet (hmInsert m k v) q = hmGet m q := by
  rw [hmInsert]
  by_cases h : m.any (fun p => p.1 == k) = true
  · rw [if_pos h, hmGet, find_map_ne m k v q hne, hmGet]
  · rw [if_neg h, hmGet, find_append_ne m k v q hne, hmGet]

lemma hmLen_hmInsert_mem (m : ReadingsStore) (k : Uuid) (v : TarotReading)
    (h : k ∈ hmKeys m) : hmLen (hmInsert m k v) = hmLen m := by
  rw [hmInsert, if_pos (any_key_eq_true_of_mem m k h)]
  simp [hmLen]

lemma hmLen_hmInsert_not_mem (m : ReadingsStore) (k : Uuid) (v : TarotReading)
    (h : k ∉ hmKeys m) : hmLen (hmInsert m k v) = hmLen m + 1 := by
  rw [hmInsert_of_not_mem m k v h]
  simp [hmLen]

lemma hmKeys_append (m m' : ReadingsStore) :
    hmKeys (m ++ m') = hmKeys m ++ hmKeys m' := by
  simp [hmKeys]

lemma hmValues_append (m m' : ReadingsStore) :
    hmValues (m ++ m') = hmValues m ++ hmValues m' := by
  simp [hmValues]

lemma StoreWF_hmInsert_not_mem (m : ReadingsStore) (k : Uuid) (v : TarotReading)
    (hwf : StoreWF m) (h : k ∉ hmKeys m) : StoreWF (hmInsert m k v) := by
  rw [StoreWF, hmInsert_of_not_mem m k v h, hmKeys_append,
    show hmKeys [(k, v)] = [k] from rfl]
  exact List.Nodup.append hwf (List.nodup_singleton k) (List.disjoint_singleton.mpr h)

/-! ### Lemmas: listing and sorting -/

lemma get_readings_perm (store : ReadingsStore) :
    List.Perm (get_readings store) (hmValues store) :=
  List.mergeSort_perm (hmValues store) _

lemma get_readings_length (store : ReadingsStore) :
    (get_readings store).length = hmLen store := by
  rw [get_readings, List.length_mergeSort, hmValues, List.length_map, hmLen]

lemma get_readings_sorted (store : ReadingsStore) :
    (get_readings store).Pairwise (fun a b => b.created_at ≤ a.created_at) := by
  have h := @List.sorted_mergeSort TarotReading
    (fun a b => decide (b.created_at ≤ a.created_at))
    (fun a b c hab hbc => by
      simp only [decide_eq_true_eq] at *
      exact le_trans hbc hab)
    (fun a b => by
      simp only [Bool.or_eq_true, decide_eq_true_eq]
      exact le_total _ _)
    (hmValues store)
  exact h.imp (fun hb => by simpa using hb)

lemma pairwise_strict_of_nodup_times (l : List TarotReading)
    (hs : l.Pairwise (fun a b => b.created_at ≤ a.created_at))
    (hn : (l.map (fun r => r.created_at)).Nodup) :
    l.Pairwise (fun a b => b.created_at < a.created_at) := by
  rw [List.Nodup, List.pairwise_map] at hn
  exact (hs.and hn).imp (fun h => lt_of_le_of_ne h.1 (Ne.symm h.2))

/-! ### Lemmas: seeding and repeated creates -/

lemma initialize_sample_data_eq (id1 id2 id3 : Uuid) (t0 : Int)
    (h12 : id1 ≠ id2) (h13 : id1 ≠ id3) (h23 : id2 ≠ id3) :
    initialize_sample_data id1 id2 id3 t0 =
      (sampleReadings id1 id2 id3 t0).map (fun r => (r.id, r)) := by
  simp [initialize_sample_data, sampleReadings, hmInsert, h12, h13, h23,
    Ne.symm h12, Ne.symm h13, Ne.symm h23]

lemma create_reading_fst (store : ReadingsStore) (req : CreateReadingRequest)
    (id : Uuid) (now : Int) :
    (create_reading store req id now).1 =
      hmInsert store id (requestReading (req, id, now)) := rfl

lemma create_reading_body (store : ReadingsStore) (req : CreateReadingRequest)
    (id : Uuid) (now : Int) :
    (create_reading store req id now).2.1 = requestReading (req, id, now) := rfl

lemma createMany_eq (reqs : List (CreateReadingRequest × Uuid × Int)) :
    ∀ m : ReadingsStore,
      (hmKeys m ++ reqs.map (fun r => r.2.1)).Nodup →
      createMany m reqs = m ++ reqs.map (fun r => (r.2.1, requestReading r)) := by
  induction reqs with
  | nil => intro m _; simp [createMany]
  | cons r tl ih =>
    intro m h
    have hsplit := List.nodup_append.mp (by simpa using h)
    have hid : r.2.1 ∉ hmKeys m := fun hin =>
      hsplit.2.2 hin (by simp)
    have hstep : createMany m (r :: tl) =
        createMany (hmInsert m r.2.1 (requestReading r)) tl := rfl
    rw [hstep, hmInsert_of_not_mem m r.2.1 (requestReading r) hid, ih]
    · simp
    · rw [hmKeys_append, show hmKeys [(r.2.1, requestReading r)] = [r.2.1] from rfl]
      simpa [List.append_assoc] using h

lemma head_eq_of_sorted_perm (l vals : List TarotReading)
    (hp : List.Perm l vals)
    (hs : l.Pairwise (fun a b => b.created_at ≤ a.created_at))
    (x : TarotReading) (hx : x ∈ vals)
    (hmax : ∀ y ∈ vals, y = x ∨ y.created_at < x.created_at) :
    l.head? = some x := by
  have hxl : x ∈ l := hp.mem_iff.mpr hx
  cases l with
  | nil => simp at hxl
  | cons a tl =>
    rcases hmax a (hp.mem_iff.mp (List.mem_cons_self a tl)) with ha | ha
    · rw [List.head?_cons, ha]
    · rcases List.mem_cons.mp hxl with hxa | hxt
      · exact absurd (hxa ▸ ha) (lt_irrefl _)
      · have hle := (List.pairwise_cons.mp hs).1 x hxt
        exact absurd (lt_of_lt_of_le ha hle) (lt_irrefl _)

lemma mapM_jsonStr_str (xs : List String) :
    (xs.map JsonVal.str).mapM jsonStr? = some xs := by
  rw [← List.mapM'_eq_mapM]
  induction xs with
  | nil => rfl
  | cons x tl ih => simp [List.mapM', jsonStr?, ih]

/-! ### Claim theorems -/

/-- C2: `get_reading` returns the stored record when the id string parses to
an identifier present in the store; an unparseable id string and a
well-formed but absent identifier both yield the empty not-found result
`none`, indistinguishably. -/
theorem c2_get_not_found_uniform (store : ReadingsStore) (s : String) :
    (parse_str s = none → get_reading store s = none) ∧
    (∀ u : Uuid, parse_str s = some u → u ∉ hmKeys store →
      get_reading store s = none) ∧
    (∀ (u : Uuid) (r : TarotReading), parse_str s = some u → hmGet store u = some r →
      get_reading store s = some r) := by
  refine ⟨fun h => ?_, fun u hu habs => ?_, fun u r hu hr => ?_⟩
  · rw [get_reading, h]
  · rw [get_reading, hu]
    exact hmGet_eq_none_of_not_mem store u habs
  · rw [get_reading, hu]
    exact hr

/-- Witness for C2: the non-uuid string of the spec's concrete scenario and a
well-formed but absent uuid both answer not-found on a concrete store. -/
theorem c2_get_not_found_uniform_witness :
    (parse_str "not-a-uuid" = none ∧ get_reading [] "not-a-uuid" = none) ∧
    (parse_str (uuidToString 5) = some 5 ∧ get_reading [] (uuidToString 5) = none) :=
  ⟨⟨by decide, (c2_get_not_found_uniform [] "not-a-uuid").1 (by decide)⟩,
   ⟨by decide, (c2_get_not_found_uniform [] (uuidToString 5)).2.1 5 (by decide)
      (by decide)⟩⟩

/-- C3: `create_reading` stores a record carrying exactly the supplied
question, cards and interpretation together with the generated id and the
current timestamp, returns that same record, and the Location reference is
`/api/readings/` followed by the generated id's canonical string. -/
theorem c3_create_spec (store : ReadingsStore) (req : CreateReadingRequest)
    (id : Uuid) (now : Int) :
    ((create_reading store req id now).2.1.id = id ∧
     (create_reading store req id now).2.1.question = req.question ∧
     (create_reading store req id now).2.1.cards = req.cards ∧
     (create_reading store req id now).2.1.interpretation = req.interpretation ∧
     (create_reading store req id now).2.1.created_at = now) ∧
    hmGet (create_reading store req id now).1 id =
      some (create_reading store req id now).2.1 ∧
    (create_reading store req id now).2.2 = "/api/readings/" ++ uuidToString id := by
  refine ⟨⟨rfl, rfl, rfl, rfl, rfl⟩, ?_, rfl⟩
  rw [create_reading_fst, create_reading_body]
  exact hmGet_hmInsert_self store id _

/-- C5: a record returned by create is found again, field for field, by a
get on its identifier's textual form. -/
theorem c5_create_get_roundtrip (store : ReadingsStore) (req : CreateReadingRequest)
    (id : Uuid) (now : Int) (hid : id < 2 ^ 128) :
    get_reading (create_reading store req id now).1
        (uuidToString (create_reading store req id now).2.1.id) =
      some (create_reading store req id now).2.1 := by
  rw [create_reading_body, create_reading_fst]
  show get_reading _ (uuidToString id) = _
  simp only [get_reading, parse_str_uuidToString id hid]
  exact hmGet_hmInsert_self store id _

/-- Witness for C5 at a concrete create. -/
theorem c5_create_get_roundtrip_witness :
    (5 : Uuid) < 2 ^ 128 ∧
    get_reading (create_reading [] ⟨"q", ["c"], "i"⟩ 5 7).1
        (uuidToString (create_reading [] ⟨"q", ["c"], "i"⟩ 5 7).2.1.id) =
      some (create_reading [] ⟨"q", ["c"], "i"⟩ 5 7).2.1 :=
  ⟨by decide, c5_create_get_roundtrip [] ⟨"q", ["c"], "i"⟩ 5 7 (by decide)⟩

/-- C7: the CORS configurator splits `ALLOWED_ORIGINS` on commas in
production when set, allows all origins in production when absent, uses the
fixed four local origins in development, and always allows
GET/POST/PUT/DELETE/OPTIONS, all headers, and credentials. -/
theorem c7_cors (env : Option String) (s : String) (d : Bool) :
    (configure_cors false (some s)).allowed_origins =
      AllowedOrigins.someExact (s.splitOn ",") ∧
    (configure_cors false none).allowed_origins = AllowedOrigins.all ∧
    (configure_cors true env).allowed_origins = AllowedOrigins.someExact
      ["http://localhost:3000", "http://127.0.0.1:3000",
       "http://localhost:5173", "http://127.0.0.1:5173"] ∧
    (configure_cors d env).allowed_methods = ["GET", "POST", "PUT", "DELETE", "OPTIONS"] ∧
    (configure_cors d env).allowed_headers_all = true ∧
    (configure_cors d env).allow_credentials = true :=
  ⟨rfl, rfl, rfl, rfl, rfl, rfl⟩

/-- C9: when the generated identifier collides with an existing key,
`create_reading` overwrites the stored record and the store's size does not
grow; uniqueness is not enforced by the insert itself. -/
theorem c9_create_overwrites (m : ReadingsStore) (req : CreateReadingRequest)
    (id : Uuid) (now : Int) (hmem : id ∈ hmKeys m) :
    hmLen (create_reading m req id now).1 = hmLen m ∧
    hmGet (create_reading m req id now).1 id =
      some (create_reading m req id now).2.1 := by
  constructor
  · rw [create_reading_fst]
    exact hmLen_hmInsert_mem m id _ hmem
  · rw [create_reading_fst, create_reading_body]
    exact hmGet_hmInsert_self m id _

/-- Witness for C9: creating over an occupied key on a concrete store keeps
its size at 1 and the lookup yields the new record. -/
theorem c9_create_overwrites_witness :
    (5 : Uuid) ∈ hmKeys [((5 : Uuid), ⟨5, "old", [], "old", 0⟩)] ∧
    hmLen (create_reading [((5 : Uuid), ⟨5, "old", [], "old", 0⟩)] ⟨"q", [], "i"⟩ 5 7).1 =
      hmLen [((5 : Uuid), (⟨5, "old", [], "old", 0⟩ : TarotReading))] ∧
    hmGet (create_reading [((5 : Uuid), ⟨5, "old", [], "old", 0⟩)] ⟨"q", [], "i"⟩ 5 7).1 5 =
      some (create_reading [((5 : Uuid), ⟨5, "old", [], "old", 0⟩)] ⟨"q", [], "i"⟩ 5 7).2.1 :=
  ⟨by decide, c9_create_overwrites [(5, ⟨5, "old", [], "old", 0⟩)] ⟨"q", [], "i"⟩ 5 7
    (by decide)⟩

/-- C10: `get_reading` looks records up by the parsed identifier value, not
by string equality: every textual form the parser accepts reaches the same
stored record, and the canonical lowercase hyphenated form, its uppercase
variant, the braced form and the URN form all parse to the same value. -/
theorem c10_lookup_by_value (store : ReadingsStore) (u : Uuid) (hu : u < 2 ^ 128) :
    (∀ s : String, parse_str s = some u → get_reading store s = hmGet store u) ∧
    parse_str (uuidToString u) = some u ∧
    parse_str (uuidToStringUpper u) = some u ∧
    parse_str (uuidToStringBraced u) = some u ∧
    parse_str (uuidToStringUrn u) = some u := by
  refine ⟨fun s hs => ?_, parse_str_uuidToString u hu, parse_str_uuidToStringUpper u hu,
    parse_str_uuidToStringBraced u hu, parse_str_uuidToStringUrn u hu⟩
  rw [get_reading, hs]

/-- Witness for C10: on a concrete one-record store, the uppercase, braced
and URN forms of the stored uuid all retrieve the record. -/
theorem c10_lookup_by_value_witness :
    (255 : Uuid) < 2 ^ 128 ∧
    get_reading [((255 : Uuid), ⟨255, "q", [], "i", 0⟩)] (uuidToStringUpper 255) =
      hmGet [((255 : Uuid), ⟨255, "q", [], "i", 0⟩)] 255 ∧
    get_reading [((255 : Uuid), ⟨255, "q", [], "i", 0⟩)] (uuidToStringBraced 255) =
      hmGet [((255 : Uuid), ⟨255, "q", [], "i", 0⟩)] 255 ∧
    get_reading [((255 : Uuid), ⟨255, "q", [], "i", 0⟩)] (uuidToStringUrn 255) =
      hmGet [((255 : Uuid), ⟨255, "q", [], "i", 0⟩)] 255 :=
  ⟨by decide,
   (c10_lookup_by_value [(255, ⟨255, "q", [], "i", 0⟩)] 255 (by decide)).1 _
     (c10_lookup_by_value [(255, ⟨255, "q", [], "i", 0⟩)] 255 (by decide)).2.2.1,
   (c10_lookup_by_value [(255, ⟨255, "q", [], "i", 0⟩)] 255 (by decide)).1 _
     (c10_lookup_by_value [(255, ⟨255, "q", [], "i", 0⟩)] 255 (by decide)).2.2.2.1,
   (c10_lookup_by_value [(255, ⟨255, "q", [], "i", 0⟩)] 255 (by decide)).1 _
     (c10_lookup_by_value [(255, ⟨255, "q", [], "i", 0⟩)] 255 (by decide)).2.2.2.2⟩

/-- C4: with a well-formed store and a fresh generated identifier (the
reliance of `Uuid::new_v4()`, cf. C9), create preserves key uniqueness,
never mutates or deletes an existing record, returns an identifier absent
from all previously stored records, and only appends. -/
theorem c4_invariants (m : ReadingsStore) (req : CreateReadingRequest)
    (id : Uuid) (now : Int) (hwf : StoreWF m) (hfresh : id ∉ hmKeys m) :
    StoreWF (create_reading m req id now).1 ∧
    (∀ (k : Uuid) (r : TarotReading), hmGet m k = some r →
      hmGet (create_reading m req id now).1 k = some r) ∧
    hmGet m id = none ∧
    hmValues (create_reading m req id now).1 =
      hmValues m ++ [(create_reading m req id now).2.1] ∧
    hmLen (create_reading m req id now).1 = hmLen m + 1 := by
  refine ⟨?_, fun k r hk => ?_, hmGet_eq_none_of_not_mem m id hfresh, ?_, ?_⟩
  · rw [create_reading_fst]
    exact StoreWF_hmInsert_not_mem m id _ hwf hfresh
  · by_cases hki : k = id
    · subst hki
      rw [hmGet_eq_none_of_not_mem m k hfresh] at hk
      exact absurd hk (by simp)
    · rw [create_reading_fst, hmGet_hmInsert_ne m id _ k hki]
      exact hk
  · rw [create_reading_fst, create_reading_body, hmInsert_of_not_mem m id _ hfresh,
      hmValues_append]
    rfl
  · rw [create_reading_fst]
    exact hmLen_hmInsert_not_mem m id _ hfresh

/-- Witness for C4 at a concrete store and a fresh id. -/
theorem c4_invariants_witness :
    (StoreWF [((3 : Uuid), ⟨3, "q0", [], "i0", 0⟩)] ∧
      (5 : Uuid) ∉ hmKeys [((3 : Uuid), ⟨3, "q0", [], "i0", 0⟩)]) ∧
    (StoreWF (create_reading [((3 : Uuid), ⟨3, "q0", [], "i0", 0⟩)] ⟨"q", [], "i"⟩ 5 7).1 ∧
      hmGet [((3 : Uuid), ⟨3, "q0", [], "i0", 0⟩)] 5 = none ∧
      hmLen (create_reading [((3 : Uuid), ⟨3, "q0", [], "i0", 0⟩)] ⟨"q", [], "i"⟩ 5 7).1 =
        hmLen [((3 : Uuid), (⟨3, "q0", [], "i0", 0⟩ : TarotReading))] + 1) :=
  ⟨⟨by unfold StoreWF; decide, by decide⟩,
   ⟨(c4_invariants [(3, ⟨3, "q0", [], "i0", 0⟩)] ⟨"q", [], "i"⟩ 5 7 (by unfold StoreWF; decide)
        (by decide)).1,
    (c4_invariants [(3, ⟨3, "q0", [], "i0", 0⟩)] ⟨"q", [], "i"⟩ 5 7 (by unfold StoreWF; decide)
        (by decide)).2.2.1,
    (c4_invariants [(3, ⟨3, "q0", [], "i0", 0⟩)] ⟨"q", [], "i"⟩ 5 7 (by unfold StoreWF; decide)
        (by decide)).2.2.2.2⟩⟩

/-- C8: serializing a created record to its JSON shape and parsing that JSON
back yields the record, field for field. -/
theorem c8_json_roundtrip (r : TarotReading) (hid : r.id < 2 ^ 128) :
    deserializeReading (serializeReading r) = some r := by
  have f1 : jsonField (serializeReading r) "id" = some (.str (uuidToString r.id)) := rfl
  have f2 : jsonField (serializeReading r) "question" = some (.str r.question) := rfl
  have f3 : jsonField (serializeReading r) "cards" =
      some (.arr (r.cards.map .str)) := rfl
  have f4 : jsonField (serializeReading r) "interpretation" =
      some (.str r.interpretation) := rfl
  have f5 : jsonField (serializeReading r) "created_at" =
      some (.int r.created_at) := rfl
  rw [deserializeReading]
  simp only [f1, f2, f3, f4, f5, jsonStr?, jsonInt?, jsonStrList?,
    Option.some_bind, parse_str_uuidToString r.id hid, mapM_jsonStr_str r.cards,
    Option.bind_eq_bind]

/-- Witness for C8 at a concrete record. -/
theorem c8_json_roundtrip_witness :
    (⟨255, "q", ["a", "b"], "i", 42⟩ : TarotReading).id < 2 ^ 128 ∧
    deserializeReading (serializeReading ⟨255, "q", ["a", "b"], "i", 42⟩) =
      some (⟨255, "q", ["a", "b"], "i", 42⟩ : TarotReading) :=
  ⟨by decide, c8_json_roundtrip ⟨255, "q", ["a", "b"], "i", 42⟩ (by decide)⟩

/-- C6: at startup, before any create, the store holds exactly the three
fixed sample records (career, relationship, financial) with pairwise
distinct backdated timestamps (two days ago, one day ago, now), and list()
immediately after startup returns exactly 3 records with the financial
sample most recent. -/
theorem c6_seed_data (id1 id2 id3 : Uuid) (t0 : Int)
    (h12 : id1 ≠ id2) (h13 : id1 ≠ id3) (h23 : id2 ≠ id3) :
    hmValues (initialize_sample_data id1 id2 id3 t0) =
      sampleReadings id1 id2 id3 t0 ∧
    hmLen (initialize_sample_data id1 id2 id3 t0) = 3 ∧
    ((sampleReadings id1 id2 id3 t0).map (fun r => r.created_at)).Nodup ∧
    (get_readings (initialize_sample_data id1 id2 id3 t0)).length = 3 ∧
    (get_readings (initialize_sample_data id1 id2 id3 t0)).head? =
      some { id := id3, question := sampleQuestion3, cards := sampleCards3,
             interpretation := sampleInterp3, created_at := t0 } := by
  have hev := initialize_sample_data_eq id1 id2 id3 t0 h12 h13 h23
  have hvals : hmValues (initialize_sample_data id1 id2 id3 t0) =
      sampleReadings id1 id2 id3 t0 := by
    rw [hev]
    simp [hmValues, List.map_map, Function.comp_def]
  refine ⟨hvals, ?_, ?_, ?_, ?_⟩
  · rw [hev]
    simp [hmLen, sampleReadings]
  · simp only [sampleReadings, List.map_cons, List.map_nil]
    simp only [List.nodup_cons, List.mem_cons, List.mem_singleton,
      List.not_mem_nil, List.nodup_nil, or_false, not_or, and_true,
      not_false_eq_true]
    omega
  · rw [get_readings_length, hev]
    simp [hmLen, sampleReadings]
  · refine head_eq_of_sorted_perm _ _ (hvals ▸ get_readings_perm _)
      (get_readings_sorted _) _ ?_ ?_
    · simp [sampleReadings]
    · intro y hy
      simp only [sampleReadings, List.mem_cons, List.mem_singleton,
        List.not_mem_nil, or_false] at hy
      rcases hy with hy | hy | hy <;> subst hy
      · right; simp
      · right; simp
      · left; rfl

/-- Witness for C6 at concrete seed ids and startup time 0. -/
theorem c6_seed_data_witness :
    ((1 : Uuid) ≠ 2 ∧ (1 : Uuid) ≠ 3 ∧ (2 : Uuid) ≠ 3) ∧
    (get_readings (initialize_sample_data 1 2 3 0)).length = 3 ∧
    (get_readings (initialize_sample_data 1 2 3 0)).head? =
      some { id := 3, question := sampleQuestion3, cards := sampleCards3,
             interpretation := sampleInterp3, created_at := 0 } :=
  ⟨⟨by decide, by decide, by decide⟩,
   (c6_seed_data 1 2 3 0 (by decide) (by decide) (by decide)).2.2.2.1,
   (c6_seed_data 1 2 3 0 (by decide) (by decide) (by decide)).2.2.2.2⟩

/-- C1: list() always returns all records of the store sorted by created-at
descending; in the scenario of N successful creates on top of the three
seeded records (fresh distinct identifiers, pairwise distinct timestamps),
it returns exactly N + 3 records in strictly descending created-at order. -/
theorem c1_list_ordered_desc :
    (∀ store : ReadingsStore,
      List.Perm (get_readings store) (hmValues store) ∧
      (get_readings store).Pairwise (fun a b => b.created_at ≤ a.created_at)) ∧
    ∀ (id1 id2 id3 : Uuid) (t0 : Int)
      (reqs : List (CreateReadingRequest × Uuid × Int)),
      (([id1, id2, id3] : List Uuid) ++ reqs.map (fun r => r.2.1)).Nodup →
      (((sampleReadings id1 id2 id3 t0).map (fun r => r.created_at))
          ++ reqs.map (fun r => r.2.2)).Nodup →
      (get_readings (createMany (initialize_sample_data id1 id2 id3 t0) reqs)).length =
          reqs.length + 3 ∧
      (get_readings (createMany (initialize_sample_data id1 id2 id3 t0) reqs)).Pairwise
          (fun a b => b.created_at < a.created_at) := by
  refine ⟨fun store => ⟨get_readings_perm store, get_readings_sorted store⟩, ?_⟩
  intro id1 id2 id3 t0 reqs hids htimes
  have hid3 : ([id1, id2, id3] : List Uuid).Nodup := hids.of_append_left
  have h12 : id1 ≠ id2 := by
    intro h; subst h; simp [List.nodup_cons] at hid3
  have h13 : id1 ≠ id3 := by
    intro h; subst h; simp [List.nodup_cons] at hid3
  have h23 : id2 ≠ id3 := by
    intro h; subst h; simp [List.nodup_cons] at hid3
  have hseed := initialize_sample_data_eq id1 id2 id3 t0 h12 h13 h23
  have hkeys : hmKeys (initialize_sample_data id1 id2 id3 t0) = [id1, id2, id3] := by
    rw [hseed]
    simp [hmKeys, List.map_map, Function.comp_def, sampleReadings]
  have hcm := createMany_eq reqs (initialize_sample_data id1 id2 id3 t0)
    (by rw [hkeys]; exact hids)
  have hvals : hmValues (createMany (initialize_sample_data id1 id2 id3 t0) reqs) =
      sampleReadings id1 id2 id3 t0 ++ reqs.map requestReading := by
    rw [hcm, hmValues_append, hseed]
    congr 1
    · simp [hmValues, List.map_map, Function.comp_def]
  constructor
  · rw [get_readings_length]
    have : hmLen (createMany (initialize_sample_data id1 id2 id3 t0) reqs) =
        (hmValues (createMany (initialize_sample_data id1 id2 id3 t0) reqs)).length := by
      simp [hmLen, hmValues]
    rw [this, hvals]
    simp [sampleReadings]
  · refine pairwise_strict_of_nodup_times _ (get_readings_sorted _) ?_
    have hperm := (get_readings_perm
      (createMany (initialize_sample_data id1 id2 id3 t0) reqs)).map
      (fun r => r.created_at)
    rw [hvals] at hperm
    refine hperm.nodup_iff.mpr ?_
    have hmapeq : (sampleReadings id1 id2 id3 t0 ++ reqs.map requestReading).map
        (fun r => r.created_at) =
        ((sampleReadings id1 id2 id3 t0).map (fun r => r.created_at))
          ++ reqs.map (fun r => r.2.2) := by
      rw [List.map_append, List.map_map]
      rfl
    rw [hmapeq]
    exact htimes

/-- Witness for C1's scenario: one create on top of the seeds, all
identifiers distinct and all timestamps distinct. -/
theorem c1_list_ordered_desc_witness :
    (([1, 2, 3] : List Uuid) ++
        ([(⟨"q", ["c"], "i"⟩, 7, 5)] :
          List (CreateReadingRequest × Uuid × Int)).map (fun r => r.2.1)).Nodup ∧
    (((sampleReadings 1 2 3 0).map (fun r => r.created_at))
        ++ ([(⟨"q", ["c"], "i"⟩, 7, 5)] :
          List (CreateReadingRequest × Uuid × Int)).map (fun r => r.2.2)).Nodup ∧
    (get_readings (createMany (initialize_sample_data 1 2 3 0)
        [(⟨"q", ["c"], "i"⟩, 7, 5)])).length = 1 + 3 :=
  ⟨by decide, by decide,
   (c1_list_ordered_desc.2 1 2 3 0 [(⟨"q", ["c"], "i"⟩, 7, 5)]
     (by decide) (by decide)).1⟩
